import Mathlib

/-!
Verification of the interactive core of the terminal-portfolio repository:
the `ArrowSelection` menu utility (`src/utils/arrowSelection.ts`) and the
Snake game simulation (the `SnakeGame` component).

The embedding is shallow: the mutable TypeScript objects become immutable
Lean structures, method calls become functions from a state to a new state
(plus, where the method invokes a host callback, a description of the
invocation), and `Math.random()` becomes an explicit oracle of rational
draws in `[0, 1)` consumed in program order.  Callbacks themselves
(`onSelect`, `onExit`, item `action`s) are external host code; the model
records whether they are invoked and with which argument, which is all the
menu state machine observes.
-/

namespace ArrowSel

/-- A selectable menu item (`SelectableItem` in the source).  The optional
`action` callback is external code; the model keeps only a presence flag
for it, since no menu operation inspects it. -/
structure SelectableItem where
  id : String
  name : String
  description : Option String := none
  hasAction : Bool := false
deriving DecidableEq

/-- JavaScript array indexing `l[i]` with a (possibly negative or
out-of-range) numeric index: `undefined` becomes `none`. -/
def jsGet {α : Type} (l : List α) (i : Int) : Option α :=
  if 0 ≤ i then l[i.toNat]? else none

/-- The `ArrowSelection` state: the item list and the current cursor.
`currentIndex` is a JavaScript number, embedded as `Int` (the source can
drive it to `-1` via `items.length - 1` on an empty list).  The optional
`onExit` callback of the configuration is represented by a presence
flag. -/
structure ArrowSelection where
  items : List SelectableItem
  currentIndex : Int
  onExitPresent : Bool
deriving DecidableEq

/-- The constructor: `currentIndex` is initialised to `0`. -/
def ArrowSelection.create (items : List SelectableItem) (onExitPresent : Bool) :
    ArrowSelection :=
  { items := items, currentIndex := 0, onExitPresent := onExitPresent }

/-- `getCurrentItem()`: `this.items[this.currentIndex]`. -/
def ArrowSelection.getCurrentItem (s : ArrowSelection) : Option SelectableItem :=
  jsGet s.items s.currentIndex

/-- `moveUp()`:
`currentIndex = currentIndex > 0 ? currentIndex - 1 : items.length - 1`. -/
def ArrowSelection.moveUp (s : ArrowSelection) : ArrowSelection :=
  { s with currentIndex :=
      if s.currentIndex > 0 then s.currentIndex - 1 else (s.items.length : Int) - 1 }

/-- `moveDown()`:
`currentIndex = currentIndex < items.length - 1 ? currentIndex + 1 : 0`. -/
def ArrowSelection.moveDown (s : ArrowSelection) : ArrowSelection :=
  { s with currentIndex :=
      if s.currentIndex < (s.items.length : Int) - 1 then s.currentIndex + 1 else 0 }

/-- `select()`: `if (items[currentIndex]) { onSelect(items[currentIndex]) }`.
The second component is the argument passed to `onSelect`, or `none` when
the guard is falsy (index out of range, hence `undefined`) and no callback
is invoked.  The first component is the state after the call. -/
def ArrowSelection.select (s : ArrowSelection) :
    ArrowSelection × Option SelectableItem :=
  (s, jsGet s.items s.currentIndex)

/-- `exit()`: `if (onExit) { onExit() }`.  The second component records
whether `onExit` was invoked; the first is the state after the call. -/
def ArrowSelection.exit (s : ArrowSelection) : ArrowSelection × Bool :=
  (s, s.onExitPresent)

end ArrowSel

namespace Snake

/-- The grid cell edge length (`const grid = 16`). -/
def grid : Int := 16

/-- The canvas extent (`canvas.width = canvas.height = 400`), i.e. 25×25
grid cells. -/
def canvasSize : Int := 400

/-- The simulation state of the Snake game.  `x`, `y`, `dx`, `dy` are the
fields of the `snake` object, `cells` its body (head first), `maxCells`
the target length; `appleX`, `appleY` are the `apple` object's fields, and
`score` is the React `score` state (updated via `setScore` in the same
synchronous tick). -/
structure GameState where
  x : Int
  y : Int
  dx : Int
  dy : Int
  cells : List (Int × Int)
  maxCells : Nat
  score : Nat
  appleX : Int
  appleY : Int
deriving DecidableEq

/-- The initial state: `snake = {x:160, y:160, dx:grid, dy:0, cells:[],
maxCells:4}`, `apple = {x:320, y:320}`, `score = 0`. -/
def initState : GameState :=
  { x := 160, y := 160, dx := grid, dy := 0, cells := [], maxCells := 4,
    score := 0, appleX := 320, appleY := 320 }

/-- `getRandomInt(min, max) = Math.floor(Math.random() * (max - min)) + min`,
with the `Math.random()` result passed explicitly as a rational `r`. -/
def getRandomInt (min max : Int) (r : ℚ) : Int :=
  ⌊r * ((max : ℚ) - (min : ℚ))⌋ + min

/-- One apple relocation: `apple.x = getRandomInt(0, 25) * grid;
apple.y = getRandomInt(0, 25) * grid`, consuming the oracle draws at
positions `k` and `k + 1` (in program order, x first). -/
def newApple (rng : Nat → ℚ) (k : Nat) : Int × Int :=
  (getRandomInt 0 25 (rng k) * grid, getRandomInt 0 25 (rng (k + 1)) * grid)

/-- The oracle models successive `Math.random()` results: each draw lies
in `[0, 1)`. -/
def validRng (rng : Nat → ℚ) : Prop :=
  ∀ k, 0 ≤ rng k ∧ rng k < 1

/-- `resetGame()`: restores the snake to its initial position, direction
and length, empties the cells, zeroes the score, and relocates the apple
(consuming two oracle draws).  Returns the new state and the next unused
draw position. -/
def resetGame (rng : Nat → ℚ) (k : Nat) : GameState × Nat :=
  ({ x := 160, y := 160, dx := grid, dy := 0, cells := [], maxCells := 4,
     score := 0, appleX := (newApple rng k).1, appleY := (newApple rng k).2 },
   k + 2)

/-- Wraparound of one coordinate:
`if (snake.x < 0) snake.x = canvas.width - grid; else if (snake.x >= canvas.width) snake.x = 0`
(the vertical rule is identical since the canvas is square). -/
def wrapCoord (c : Int) : Int :=
  if c < 0 then canvasSize - grid else if c ≥ canvasSize then 0 else c

/-- The head position for this tick, after `snake.x += snake.dx;
snake.y += snake.dy` and the wraparound on each axis. -/
def nextHead (s : GameState) : Int × Int :=
  (wrapCoord (s.x + s.dx), wrapCoord (s.y + s.dy))

/-- The body for this tick: `snake.cells.unshift({x, y})` followed by
`if (snake.cells.length > snake.maxCells) snake.cells.pop()`. -/
def tickCells (s : GameState) : List (Int × Int) :=
  let cells1 := nextHead s :: s.cells
  if cells1.length > s.maxCells then cells1.dropLast else cells1

/-- The per-cell scan of `snake.cells.forEach((cell, index) => ...)`.

`cs` is the array object captured by `forEach` (iteration continues over
it even after `resetGame` reassigns `snake.cells`), `idx` the current
index, and the state and oracle position are threaded through.  For each
cell, in order: if the cell's coordinates equal the apple's, grow
(`maxCells++`, `score += 10`) and relocate the apple; then the inner loop
scans `snake.cells[i]` for `i > idx` — reading the *current*
`snake.cells`, an empty array after any reset — and calls `resetGame()` on
a match (the source keeps looping after the reset, but the reset empties
`snake.cells`, so the inner loop terminates immediately and can fire at
most once per tick; `List.any` over the dropped prefix is therefore an
exact model). -/
def scanStep (rng : Nat → ℚ) (c : Int × Int) (idx : Nat) (s : GameState)
    (k : Nat) : GameState × Nat :=
  let sk1 :=
    if c.1 = s.appleX ∧ c.2 = s.appleY then
      ({ s with
          maxCells := s.maxCells + 1
          score := s.score + 10
          appleX := (newApple rng k).1
          appleY := (newApple rng k).2 }, k + 2)
    else (s, k)
  if (sk1.1.cells.drop (idx + 1)).any
      (fun d => d.1 = c.1 ∧ d.2 = c.2) then
    resetGame rng sk1.2
  else sk1

/-- Iterating `scanStep` over the captured array, index by index. -/
def scanCells (rng : Nat → ℚ) : List (Int × Int) → Nat → GameState → Nat →
    GameState × Nat
  | [], _, s, k => (s, k)
  | c :: rest, idx, s, k =>
    scanCells rng rest (idx + 1) (scanStep rng c idx s k).1
      (scanStep rng c idx s k).2

/-- One simulation step of `gameLoop` (the body that runs once every six
animation frames; the frame divider and the drawing calls are
render-cadence/canvas logic with no effect on the simulation state): move
and wrap the head, unshift it onto the cells, pop the tail if over the
target length, then run the per-cell apple/self-collision scan. -/
def gameLoopTick (rng : Nat → ℚ) (s : GameState) (k : Nat) : GameState × Nat :=
  let h := nextHead s
  let cs := tickCells s
  scanCells rng cs 0 { s with x := h.1, y := h.2, cells := cs } k

/-- The keys `handleKeyDown` reacts to: the four arrows (`e.which` 37, 38,
39, 40), the restart key `r`/`R`, the quit keys `q`/`Q`/Ctrl-C, and any
other key. -/
inductive Key where
  | left
  | up
  | right
  | down
  | restart
  | quit
  | other
deriving DecidableEq

/-- `handleKeyDown`: an arrow key changes the velocity only when the
velocity component on its own axis is zero (`snake.dx === 0` for
left/right, `snake.dy === 0` for up/down); `r` forces `resetGame()`
(consuming two draws); `q`/Ctrl-C calls the host's `onExit` without
touching the snake state; anything else is ignored. -/
def handleKeyDown (rng : Nat → ℚ) (key : Key) (s : GameState) (k : Nat) :
    GameState × Nat :=
  match key with
  | .left => if s.dx = 0 then ({ s with dx := -grid, dy := 0 }, k) else (s, k)
  | .up => if s.dy = 0 then ({ s with dy := -grid, dx := 0 }, k) else (s, k)
  | .right => if s.dx = 0 then ({ s with dx := grid, dy := 0 }, k) else (s, k)
  | .down => if s.dy = 0 then ({ s with dy := grid, dx := 0 }, k) else (s, k)
  | .restart => resetGame rng k
  | .quit => (s, k)
  | .other => (s, k)

/-- Iterated simulation: the state after `n` ticks from the initial state,
with the oracle position threaded through. -/
def ticksFromInit (rng : Nat → ℚ) : Nat → GameState × Nat
  | 0 => (initState, 0)
  | n + 1 =>
    gameLoopTick rng (ticksFromInit rng n).1 (ticksFromInit rng n).2

/-- An input event of the running game: a key-down or one simulation
tick. -/
inductive Ev where
  | key (k : Key)
  | tick
deriving DecidableEq

/-- Run a sequence of events from the initial state (key events are
delivered between ticks, exactly as the browser interleaves the keydown
listener with the animation-frame loop). -/
def runEvents (rng : Nat → ℚ) (evs : List Ev) : GameState × Nat :=
  evs.foldl
    (fun sk e =>
      match e with
      | .key key => handleKeyDown rng key sk.1 sk.2
      | .tick => gameLoopTick rng sk.1 sk.2)
    (initState, 0)

/-- The direction invariant: the velocity is axis-aligned with magnitude
`grid` — exactly one of `dx`, `dy` is nonzero, and that one is `±16`
(Right/Left when `dx = ±16`, Down/Up when `dy = ±16`). -/
def dirOk (s : GameState) : Prop :=
  ((s.dx = 16 ∨ s.dx = -16) ∧ s.dy = 0) ∨ (s.dx = 0 ∧ (s.dy = 16 ∨ s.dy = -16))

/-- The head position after `k` straight-ahead ticks from the initial
state: `x` advances by 16 per tick, wrapping modulo the 400-unit board;
`y` stays at 160. -/
def posAt (k : Nat) : Int × Int :=
  ((160 + 16 * (k : Int)) % 400, 160)

/-- The body cells after `k` straight-ahead ticks from the initial state:
the last `min k 4` head positions, newest first. -/
def trailAt : Nat → List (Int × Int)
  | 0 => []
  | 1 => [posAt 1]
  | 2 => [posAt 2, posAt 1]
  | 3 => [posAt 3, posAt 2, posAt 1]
  | n + 4 => [posAt (n + 4), posAt (n + 3), posAt (n + 2), posAt (n + 1)]

/-- The full simulation state after `k` straight-ahead ticks from the
initial state (no key events; the apple at (320, 320) is never on the
snake's row `y = 160`, so it is never eaten, and the straight body never
self-intersects). -/
def straightState (k : Nat) : GameState :=
  { x := (160 + 16 * (k : Int)) % 400, y := 160, dx := 16, dy := 0,
    cells := trailAt k, maxCells := 4, score := 0, appleX := 320,
    appleY := 320 }

/-- The oracle used by the reachable self-collision counterexample: the
first apple eaten relocates the apple to cell (0, 0) (draws 0 and 1), and
the collision-triggered reset relocates it to (304, 320) — one of the
cells the scan still visits after the reset (draws 2 and 3). -/
def collisionRng : Nat → ℚ :=
  fun j => if j = 2 then 19 / 25 else if j = 3 then 20 / 25 else 0

/-- A concrete, fully reachable play: 10 ticks heading right, turn down,
10 ticks reaching the apple at (320, 320) (snake grows to 5), one more
tick, then a left-up-right square turn whose final tick makes the head
re-enter an occupied cell. -/
def collisionScript : List Ev :=
  List.replicate 10 Ev.tick ++ [Ev.key Key.down] ++ List.replicate 10 Ev.tick
    ++ [Ev.tick, Ev.key Key.left, Ev.tick, Ev.key Key.up, Ev.tick,
        Ev.key Key.right]

/-- The oracle used by the double-apple-consumption counterexample: the
relocation after the head eats the apple places the new apple at
(320, 304) (draws 0 and 1), which is the body cell the scan visits right
after the head. -/
def doubleEatRng : Nat → ℚ :=
  fun j => if j = 0 then 20 / 25 else if j = 1 then 19 / 25 else 0

/-- A concrete, fully reachable play: 10 ticks heading right, turn down,
9 ticks; the next tick moves the head onto the apple at (320, 320). -/
def doubleEatScript : List Ev :=
  List.replicate 10 Ev.tick ++ [Ev.key Key.down] ++ List.replicate 9 Ev.tick

end Snake

/-! ### Generic list lemmas used by the scan proofs -/

/-- In a duplicate-free list, the element at position `p` does not occur
among the later elements. -/
theorem nodup_get_not_mem_drop {α : Type} :
    ∀ (l : List α), l.Nodup → ∀ p (hp : p < l.length),
      l.get ⟨p, hp⟩ ∉ l.drop (p + 1) := by
  intro l
  induction l with
  | nil => intro _ p hp; simp at hp
  | cons a l ih =>
    intro hnd p hp
    rcases List.nodup_cons.mp hnd with ⟨ha, hl⟩
    match p with
    | 0 => simpa using ha
    | p + 1 =>
      have hp' : p < l.length := by simpa using hp
      simpa using ih hl p hp'

/-- A list with a duplicate has a position whose element occurs again
later. -/
theorem exists_dup_of_not_nodup {α : Type} :
    ∀ (l : List α), ¬ l.Nodup → ∃ p, ∃ hp : p < l.length,
      l.get ⟨p, hp⟩ ∈ l.drop (p + 1) := by
  intro l
  induction l with
  | nil => intro h; exact absurd List.nodup_nil h
  | cons a l ih =>
    intro h
    by_cases ha : a ∈ l
    · exact ⟨0, by simp, by simpa using ha⟩
    · have hl : ¬ l.Nodup := by
        intro hnd
        exact h (List.nodup_cons.mpr ⟨ha, hnd⟩)
      obtain ⟨p, hp, hmem⟩ := ih hl
      exact ⟨p + 1, by simpa using Nat.succ_lt_succ hp, by simpa using hmem⟩

/-! ### Scan lemmas -/

/-- A single `scanStep` that neither eats the apple nor detects a
collision is the identity. -/
theorem scanStep_noop (rng : Nat → ℚ) (c : Int × Int) (idx : Nat)
    (s : Snake.GameState) (k : Nat)
    (hap : ¬(c.1 = s.appleX ∧ c.2 = s.appleY))
    (hcol : c ∉ s.cells.drop (idx + 1)) :
    Snake.scanStep rng c idx s k = (s, k) := by
  have hany : ((s.cells.drop (idx + 1)).any
      (fun d => d.1 = c.1 ∧ d.2 = c.2)) = false := by
    rw [List.any_eq_false]
    intro d hd
    simp only [decide_eq_true_eq]
    rintro ⟨e1, e2⟩
    exact hcol (by rwa [show d = c from Prod.ext e1 e2] at hd)
  simp only [Snake.scanStep, hap, if_false, hany, Bool.false_eq_true]

/-- Each `scanStep` either keeps position, velocity and cells untouched
(possibly growing and moving the apple), or is a reset. -/
theorem scanStep_frame (rng : Nat → ℚ) (c : Int × Int) (idx : Nat)
    (s : Snake.GameState) (k : Nat) :
    ((Snake.scanStep rng c idx s k).1.x = s.x ∧
      (Snake.scanStep rng c idx s k).1.y = s.y ∧
      (Snake.scanStep rng c idx s k).1.dx = s.dx ∧
      (Snake.scanStep rng c idx s k).1.dy = s.dy ∧
      (Snake.scanStep rng c idx s k).1.cells = s.cells) ∨
    (∃ k', Snake.scanStep rng c idx s k = Snake.resetGame rng k') := by
  unfold Snake.scanStep
  by_cases hap : (c.1 = s.appleX ∧ c.2 = s.appleY)
  · rw [if_pos hap]
    dsimp only
    by_cases hcol : ((s.cells.drop (idx + 1)).any
        (fun d => d.1 = c.1 ∧ d.2 = c.2)) = true
    · rw [if_pos hcol]
      exact Or.inr ⟨_, rfl⟩
    · rw [if_neg hcol]
      exact Or.inl ⟨rfl, rfl, rfl, rfl, rfl⟩
  · rw [if_neg hap]
    dsimp only
    by_cases hcol : ((s.cells.drop (idx + 1)).any
        (fun d => d.1 = c.1 ∧ d.2 = c.2)) = true
    · rw [if_pos hcol]
      exact Or.inr ⟨_, rfl⟩
    · rw [if_neg hcol]
      exact Or.inl ⟨rfl, rfl, rfl, rfl, rfl⟩

/-- The fields set by `resetGame`. -/
theorem resetGame_fields (rng : Nat → ℚ) (k : Nat) :
    (Snake.resetGame rng k).1.x = 160 ∧ (Snake.resetGame rng k).1.y = 160 ∧
      (Snake.resetGame rng k).1.dx = 16 ∧ (Snake.resetGame rng k).1.dy = 0 ∧
      (Snake.resetGame rng k).1.cells = [] ∧
      (Snake.resetGame rng k).1.score = 0 ∧
      (Snake.resetGame rng k).1.maxCells = 4 ∧
      (Snake.resetGame rng k).1.appleX = (Snake.newApple rng k).1 ∧
      (Snake.resetGame rng k).1.appleY = (Snake.newApple rng k).2 :=
  ⟨rfl, rfl, rfl, rfl, rfl, rfl, rfl, rfl, rfl⟩

/-- If no scanned cell matches the apple and no scanned cell occurs among
the later current cells, the scan is the identity. -/
theorem scanCells_noop (rng : Nat → ℚ) :
    ∀ (cs : List (Int × Int)) (idx : Nat) (s : Snake.GameState) (k : Nat),
      (∀ c ∈ cs, ¬(c.1 = s.appleX ∧ c.2 = s.appleY)) →
      (∀ p (hp : p < cs.length), cs.get ⟨p, hp⟩ ∉ s.cells.drop (idx + p + 1)) →
      Snake.scanCells rng cs idx s k = (s, k) := by
  intro cs
  induction cs with
  | nil => intro idx s k _ _; rfl
  | cons c rest ih =>
    intro idx s k h1 h2
    have hap : ¬(c.1 = s.appleX ∧ c.2 = s.appleY) :=
      h1 c (List.mem_cons_self c rest)
    have hcol : c ∉ s.cells.drop (idx + 1) := by
      have h := h2 0 (by simp)
      simpa using h
    have hstep := scanStep_noop rng c idx s k hap hcol
    simp only [Snake.scanCells, hstep]
    exact ih (idx + 1) s k
      (fun c' hc' => h1 c' (List.mem_cons_of_mem c hc'))
      (fun p hp => by
        have h := h2 (p + 1) (by simpa using Nat.succ_lt_succ hp)
        have harith : idx + (p + 1) + 1 = idx + 1 + p + 1 := by omega
        simpa [harith] using h)

/-- Each scan either leaves position, velocity and cells untouched, or has
gone through a reset, after which they hold the reset values. -/
theorem scanCells_frame (rng : Nat → ℚ) :
    ∀ (cs : List (Int × Int)) (idx : Nat) (s : Snake.GameState) (k : Nat),
      ((Snake.scanCells rng cs idx s k).1.x = s.x ∧
        (Snake.scanCells rng cs idx s k).1.y = s.y ∧
        (Snake.scanCells rng cs idx s k).1.dx = s.dx ∧
        (Snake.scanCells rng cs idx s k).1.dy = s.dy ∧
        (Snake.scanCells rng cs idx s k).1.cells = s.cells) ∨
      ((Snake.scanCells rng cs idx s k).1.x = 160 ∧
        (Snake.scanCells rng cs idx s k).1.y = 160 ∧
        (Snake.scanCells rng cs idx s k).1.dx = 16 ∧
        (Snake.scanCells rng cs idx s k).1.dy = 0 ∧
        (Snake.scanCells rng cs idx s k).1.cells = []) := by
  intro cs
  induction cs with
  | nil => intro idx s k; left; exact ⟨rfl, rfl, rfl, rfl, rfl⟩
  | cons c rest ih =>
    intro idx s k
    simp only [Snake.scanCells]
    rcases scanStep_frame rng c idx s k with hf | ⟨k', hr⟩
    · rcases ih (idx + 1) (Snake.scanStep rng c idx s k).1
          (Snake.scanStep rng c idx s k).2 with h | h
      · exact Or.inl ⟨h.1.trans hf.1, h.2.1.trans hf.2.1,
          h.2.2.1.trans hf.2.2.1, h.2.2.2.1.trans hf.2.2.2.1,
          h.2.2.2.2.trans hf.2.2.2.2⟩
      · exact Or.inr h
    · rw [hr]
      rcases ih (idx + 1) (Snake.resetGame rng k').1
          (Snake.resetGame rng k').2 with h | h
      · obtain ⟨e1, e2, e3, e4, e5, _⟩ := resetGame_fields rng k'
        exact Or.inr ⟨h.1.trans e1, h.2.1.trans e2, h.2.2.1.trans e3,
          h.2.2.2.1.trans e4, h.2.2.2.2.trans e5⟩
      · exact Or.inr h

/-- A step whose cell occurs among the later current cells performs a
reset. -/
theorem scanStep_reset_of_mem (rng : Nat → ℚ) (c : Int × Int) (idx : Nat)
    (s : Snake.GameState) (k : Nat) (hmem : c ∈ s.cells.drop (idx + 1)) :
    ∃ k', Snake.scanStep rng c idx s k = Snake.resetGame rng k' := by
  have hany : ((s.cells.drop (idx + 1)).any
      (fun d => d.1 = c.1 ∧ d.2 = c.2)) = true := by
    rw [List.any_eq_true]
    exact ⟨c, hmem, by simp⟩
  unfold Snake.scanStep
  by_cases hap : (c.1 = s.appleX ∧ c.2 = s.appleY)
  · rw [if_pos hap]
    dsimp only
    rw [if_pos hany]
    exact ⟨_, rfl⟩
  · rw [if_neg hap]
    dsimp only
    rw [if_pos hany]
    exact ⟨_, rfl⟩

/-- If some scanned cell occurs again among the later current cells, the
scan ends with empty cells (the collision reset fires and nothing refills
the cell list). -/
theorem scanCells_dup (rng : Nat → ℚ) :
    ∀ (cs : List (Int × Int)) (idx : Nat) (s : Snake.GameState) (k : Nat),
      (∃ p, ∃ hp : p < cs.length, cs.get ⟨p, hp⟩ ∈ s.cells.drop (idx + p + 1)) →
      (Snake.scanCells rng cs idx s k).1.cells = [] := by
  intro cs
  induction cs with
  | nil =>
    intro idx s k h
    obtain ⟨p, hp, _⟩ := h
    simp at hp
  | cons c rest ih =>
    intro idx s k h
    obtain ⟨p, hp, hmem⟩ := h
    simp only [Snake.scanCells]
    match p with
    | 0 =>
      have hmem0 : c ∈ s.cells.drop (idx + 1) := by simpa using hmem
      obtain ⟨k', hr⟩ := scanStep_reset_of_mem rng c idx s k hmem0
      rw [hr]
      rcases scanCells_frame rng rest (idx + 1) (Snake.resetGame rng k').1
          (Snake.resetGame rng k').2 with hf | hf
      · exact hf.2.2.2.2.trans (resetGame_fields rng k').2.2.2.2.1
      · exact hf.2.2.2.2
    | p + 1 =>
      rcases scanStep_frame rng c idx s k with hf | ⟨k', hr⟩
      · apply ih (idx + 1)
        refine ⟨p, by simpa using hp, ?_⟩
        rw [hf.2.2.2.2]
        have harith : idx + 1 + p + 1 = idx + (p + 1) + 1 := by omega
        rw [harith]
        simpa using hmem
      · rw [hr]
        rcases scanCells_frame rng rest (idx + 1) (Snake.resetGame rng k').1
            (Snake.resetGame rng k').2 with hf | hf
        · exact hf.2.2.2.2.trans (resetGame_fields rng k').2.2.2.2.1
        · exact hf.2.2.2.2

/-- If the oracle never relocates the apple onto a scanned cell, a scan
that empties the cells (i.e. one in which the collision reset fired) ends
in the reset configuration: score 0, target length 4, initial position and
direction. -/
theorem scanCells_collision (rng : Nat → ℚ) :
    ∀ (cs : List (Int × Int)) (idx : Nat) (s : Snake.GameState) (k : Nat),
      (∀ j, Snake.newApple rng j ∉ cs) →
      (Snake.scanCells rng cs idx s k).1.cells = [] →
      s.cells = [] ∨
        ((Snake.scanCells rng cs idx s k).1.score = 0 ∧
          (Snake.scanCells rng cs idx s k).1.maxCells = 4 ∧
          (Snake.scanCells rng cs idx s k).1.x = 160 ∧
          (Snake.scanCells rng cs idx s k).1.y = 160 ∧
          (Snake.scanCells rng cs idx s k).1.dx = 16 ∧
          (Snake.scanCells rng cs idx s k).1.dy = 0) := by
  intro cs
  induction cs with
  | nil =>
    intro idx s k _ hcells
    exact Or.inl hcells
  | cons c rest ih =>
    intro idx s k hmiss hcells
    rw [Snake.scanCells] at hcells ⊢
    rcases scanStep_frame rng c idx s k with hf | ⟨k', hr⟩
    · rcases ih (idx + 1) (Snake.scanStep rng c idx s k).1
          (Snake.scanStep rng c idx s k).2
          (fun j => fun hj => hmiss j (List.mem_cons_of_mem c hj)) hcells
          with h | h
      · exact Or.inl (hf.2.2.2.2 ▸ h)
      · exact Or.inr h
    · rw [hr] at hcells ⊢
      have hnoop : Snake.scanCells rng rest (idx + 1) (Snake.resetGame rng k').1
          (Snake.resetGame rng k').2 =
          ((Snake.resetGame rng k').1, (Snake.resetGame rng k').2) := by
        apply scanCells_noop
        · intro c' hc'
          rintro ⟨e1, e2⟩
          have : c' = Snake.newApple rng k' := by
            obtain ⟨hx, hy, hdx, hdy, hcl, hsc, hmc, hax, hay⟩ :=
              resetGame_fields rng k'
            exact Prod.ext (e1.trans hax) (e2.trans hay)
          exact hmiss k' (this ▸ List.mem_cons_of_mem c hc')
        · intro p hp
          rw [(resetGame_fields rng k').2.2.2.2.1]
          simp
      rw [hnoop]
      obtain ⟨hx, hy, hdx, hdy, hcl, hsc, hmc, _, _⟩ := resetGame_fields rng k'
      exact Or.inr ⟨hsc, hmc, hx, hy, hdx, hdy⟩

/-! ### Menu (ArrowSelection) theorems -/

/-- One `moveDown()` step on a cursor of the form `m % n` (nonempty list):
it advances the cursor to `(m + 1) % n`. -/
theorem moveDown_mod (items : List ArrowSel.SelectableItem) (b : Bool) (m : Nat)
    (hne : items ≠ []) :
    ArrowSel.ArrowSelection.moveDown ⟨items, ((m % items.length : Nat) : Int), b⟩ =
      ⟨items, (((m + 1) % items.length : Nat) : Int), b⟩ := by
  have hn : 0 < items.length := List.length_pos.mpr hne
  have hlt : m % items.length < items.length := Nat.mod_lt _ hn
  unfold ArrowSel.ArrowSelection.moveDown
  by_cases hc : ((m % items.length : Nat) : Int) < (items.length : Int) - 1
  · have hc' : m % items.length + 1 < items.length := by
      omega
    have : (m + 1) % items.length = m % items.length + 1 := by
      rw [← Nat.mod_add_mod]
      exact Nat.mod_eq_of_lt hc'
    simp only [hc, if_true, this]
    norm_cast
  · have hc' : m % items.length = items.length - 1 := by
      omega
    have : (m + 1) % items.length = 0 := by
      rw [← Nat.mod_add_mod, hc']
      have : items.length - 1 + 1 = items.length := by omega
      rw [this, Nat.mod_self]
    simp only [hc, if_false, this]
    norm_cast

/-- Iterating `moveDown()` from a cursor of the form `m % n`. -/
theorem moveDown_iterate (items : List ArrowSel.SelectableItem) (b : Bool)
    (hne : items ≠ []) (k m : Nat) :
    ArrowSel.ArrowSelection.moveDown^[k]
        ⟨items, ((m % items.length : Nat) : Int), b⟩ =
      ⟨items, (((m + k) % items.length : Nat) : Int), b⟩ := by
  induction k generalizing m with
  | zero => simp
  | succ k ih =>
    rw [Function.iterate_succ_apply, moveDown_mod items b m hne, ih (m + 1)]
    have hmk : m + 1 + k = m + (k + 1) := by omega
    rw [hmk]

/-- Claim C5: for every non-empty item list and every starting cursor
position (a valid index into the list), applying `moveDown()` exactly
`items.length` times returns the cursor to its starting value. -/
theorem claim5_moveDown_cyclic (items : List ArrowSel.SelectableItem) (b : Bool)
    (c : Nat) (hne : items ≠ []) (hc : c < items.length) :
    (ArrowSel.ArrowSelection.moveDown^[items.length]
        ⟨items, (c : Int), b⟩).currentIndex = (c : Int) := by
  have hcast : ((c % items.length : Nat) : Int) = (c : Int) := by
    rw [Nat.mod_eq_of_lt hc]
  rw [← hcast, moveDown_iterate items b hne items.length c]
  simp [Nat.add_mod_right, Nat.mod_eq_of_lt hc]

/-- Witness for C5: a concrete two-item menu, cursor starting at 1. -/
theorem claim5_moveDown_cyclic_witness :
    (ArrowSel.ArrowSelection.moveDown^[([⟨"a", "A", none, false⟩,
        ⟨"b", "B", none, false⟩] : List ArrowSel.SelectableItem).length]
        ⟨[⟨"a", "A", none, false⟩, ⟨"b", "B", none, false⟩], ((1 : Nat) : Int),
          false⟩).currentIndex = ((1 : Nat) : Int) :=
  claim5_moveDown_cyclic [⟨"a", "A", none, false⟩, ⟨"b", "B", none, false⟩]
    false 1 (by decide) (by decide)

/-- Counterexample refuting C6 as stated: on the empty item list,
`moveUp()` is not a no-op.  The source computes
`items.length - 1 = 0 - 1 = -1` and assigns it to the cursor, so from the
freshly constructed empty menu (cursor `0`) the state changes. -/
theorem claim6_moveUp_counterexample :
    ArrowSel.ArrowSelection.moveUp ⟨[], 0, false⟩ ≠
        (⟨[], 0, false⟩ : ArrowSel.ArrowSelection) ∧
      (ArrowSel.ArrowSelection.moveUp ⟨[], 0, false⟩).currentIndex = -1 := by
  constructor
  · decide
  · decide

/-- Claim C6 (amended): `moveUp()` decrements the cursor, wrapping from 0
to `items.length - 1` (in particular, `moveUp()` immediately after
construction yields cursor `items.length - 1`); on an empty item list it
is not a no-op: it sets the cursor to `items.length - 1 = -1` (the state
changes whenever the cursor was not already `-1`; on the empty list the
only cursor values ever reached are `0` and `-1`). -/
theorem claim6_moveUp_spec (s : ArrowSel.ArrowSelection) :
    (0 < s.currentIndex →
        (ArrowSel.ArrowSelection.moveUp s).currentIndex = s.currentIndex - 1) ∧
      (s.currentIndex = 0 →
        (ArrowSel.ArrowSelection.moveUp s).currentIndex =
          (s.items.length : Int) - 1) ∧
      ((ArrowSel.ArrowSelection.moveUp
          (ArrowSel.ArrowSelection.create s.items s.onExitPresent)).currentIndex =
        (s.items.length : Int) - 1) ∧
      (s.items = [] → s.currentIndex ≤ 0 →
        (ArrowSel.ArrowSelection.moveUp s).currentIndex = -1) := by
  refine ⟨fun h0 => ?_, fun h0 => ?_, ?_, fun hempty hle => ?_⟩
  · simp [ArrowSel.ArrowSelection.moveUp, h0]
  · simp [ArrowSel.ArrowSelection.moveUp, h0]
  · simp [ArrowSel.ArrowSelection.moveUp, ArrowSel.ArrowSelection.create]
  · have h0 : ¬ 0 < s.currentIndex := by omega
    simp [ArrowSel.ArrowSelection.moveUp, h0, hempty]

/-- Witness for C6 (amended): a two-item menu with cursor 1. -/
theorem claim6_moveUp_spec_witness :
    (0 < (1 : Int) →
        (ArrowSel.ArrowSelection.moveUp
          ⟨[⟨"a", "A", none, false⟩, ⟨"b", "B", none, false⟩], 1,
            false⟩).currentIndex = 1 - 1) ∧
      ((1 : Int) = 0 →
        (ArrowSel.ArrowSelection.moveUp
          ⟨[⟨"a", "A", none, false⟩, ⟨"b", "B", none, false⟩], 1,
            false⟩).currentIndex =
          (([⟨"a", "A", none, false⟩, ⟨"b", "B", none, false⟩] :
              List ArrowSel.SelectableItem).length : Int) - 1) ∧
      ((ArrowSel.ArrowSelection.moveUp
          (ArrowSel.ArrowSelection.create
            [⟨"a", "A", none, false⟩, ⟨"b", "B", none, false⟩]
            false)).currentIndex =
        (([⟨"a", "A", none, false⟩, ⟨"b", "B", none, false⟩] :
            List ArrowSel.SelectableItem).length : Int) - 1) ∧
      (([⟨"a", "A", none, false⟩, ⟨"b", "B", none, false⟩] :
          List ArrowSel.SelectableItem) = [] → (1 : Int) ≤ 0 →
        (ArrowSel.ArrowSelection.moveUp
          ⟨[⟨"a", "A", none, false⟩, ⟨"b", "B", none, false⟩], 1,
            false⟩).currentIndex = -1) :=
  claim6_moveUp_spec
    ⟨[⟨"a", "A", none, false⟩, ⟨"b", "B", none, false⟩], 1, false⟩

/-- Claim C7: calling `select()` on a menu whose item list is empty invokes
no callback (the value passed to `onSelect` is `none`) and throws no error;
in the embedding `select` is a total function, and this theorem shows it
acts as a no-op on the state with no callback invocation. -/
theorem claim7_select_empty_noop (s : ArrowSel.ArrowSelection)
    (hempty : s.items = []) :
    ArrowSel.ArrowSelection.select s = (s, none) := by
  simp [ArrowSel.ArrowSelection.select, ArrowSel.jsGet, hempty]

/-- Witness for C7: the freshly constructed empty menu. -/
theorem claim7_select_empty_noop_witness :
    ArrowSel.ArrowSelection.select ⟨[], 0, true⟩ =
      ((⟨[], 0, true⟩ : ArrowSel.ArrowSelection), none) :=
  claim7_select_empty_noop ⟨[], 0, true⟩ rfl

/-- Claim C9: `select()` and `exit()` never mutate the menu state: for
every menu state the resulting state (items and cursor included) is
unchanged; `select()` passes exactly `items[currentIndex]` to `onSelect`
(hence invokes nothing when that index is unoccupied, in particular on an
empty list), and `exit()` invokes `onExit` exactly when one was
provided. -/
theorem claim9_select_exit_frame (s : ArrowSel.ArrowSelection) :
    (ArrowSel.ArrowSelection.select s).1 = s ∧
      (ArrowSel.ArrowSelection.exit s).1 = s ∧
      (ArrowSel.ArrowSelection.select s).2 =
        ArrowSel.jsGet s.items s.currentIndex ∧
      (ArrowSel.ArrowSelection.exit s).2 = s.onExitPresent :=
  ⟨rfl, rfl, rfl, rfl⟩

/-- Claim C10: for a menu whose item list is empty, `getCurrentItem()`
returns `undefined` (`none` in the embedding), even though the declared
TypeScript return type `SelectableItem` promises an item; callers must
tolerate a missing result in the empty-list case. -/
theorem claim10_getCurrentItem_empty (s : ArrowSel.ArrowSelection)
    (hempty : s.items = []) :
    ArrowSel.ArrowSelection.getCurrentItem s = none := by
  simp [ArrowSel.ArrowSelection.getCurrentItem, ArrowSel.jsGet, hempty]

/-- Witness for C10: the freshly constructed empty menu. -/
theorem claim10_getCurrentItem_empty_witness :
    ArrowSel.ArrowSelection.getCurrentItem ⟨[], 0, false⟩ = none :=
  claim10_getCurrentItem_empty ⟨[], 0, false⟩ rfl

/-! ### Snake: direction handling (C4, C8) -/

/-- Claim C4: with the snake moving Right (`dx = 16`, `dy = 0`), a Left
key event leaves the velocity unchanged while Up and Down change it
accordingly; in general an arrow key changes the state exactly when the
requested direction is perpendicular to the axis of the current motion
(`dx = 0` for a horizontal request, `dy = 0` for a vertical one — for an
axis-aligned velocity this says the request is perpendicular to the
current direction). -/
theorem claim4_direction_guard (rng : Nat → ℚ) (s : Snake.GameState)
    (k : Nat) :
    ((Snake.handleKeyDown rng Snake.Key.left s k).1 ≠ s ↔ s.dx = 0) ∧
      ((Snake.handleKeyDown rng Snake.Key.right s k).1 ≠ s ↔ s.dx = 0) ∧
      ((Snake.handleKeyDown rng Snake.Key.up s k).1 ≠ s ↔ s.dy = 0) ∧
      ((Snake.handleKeyDown rng Snake.Key.down s k).1 ≠ s ↔ s.dy = 0) ∧
      (s.dx = 16 → s.dy = 0 →
        ((Snake.handleKeyDown rng Snake.Key.left s k).1 = s ∧
          (Snake.handleKeyDown rng Snake.Key.up s k).1 =
            { s with dx := 0, dy := -16 } ∧
          (Snake.handleKeyDown rng Snake.Key.down s k).1 =
            { s with dx := 0, dy := 16 })) := by
  refine ⟨?_, ?_, ?_, ?_, fun hx hy => ⟨?_, ?_, ?_⟩⟩
  · constructor
    · intro hne
      by_contra h
      exact hne (by simp [Snake.handleKeyDown, h])
    · intro h0
      simp only [Snake.handleKeyDown, h0, if_true]
      intro heq
      have hd := congrArg Snake.GameState.dx heq
      simp [Snake.grid] at hd
      omega
  · constructor
    · intro hne
      by_contra h
      exact hne (by simp [Snake.handleKeyDown, h])
    · intro h0
      simp only [Snake.handleKeyDown, h0, if_true]
      intro heq
      have hd := congrArg Snake.GameState.dx heq
      simp [Snake.grid] at hd
      omega
  · constructor
    · intro hne
      by_contra h
      exact hne (by simp [Snake.handleKeyDown, h])
    · intro h0
      simp only [Snake.handleKeyDown, h0, if_true]
      intro heq
      have hd := congrArg Snake.GameState.dy heq
      simp [Snake.grid] at hd
      omega
  · constructor
    · intro hne
      by_contra h
      exact hne (by simp [Snake.handleKeyDown, h])
    · intro h0
      simp only [Snake.handleKeyDown, h0, if_true]
      intro heq
      have hd := congrArg Snake.GameState.dy heq
      simp [Snake.grid] at hd
      omega
  · have h : ¬ s.dx = 0 := by omega
    simp [Snake.handleKeyDown, h]
  · simp only [Snake.handleKeyDown, hy, if_true]
    simp [Snake.grid]
  · simp only [Snake.handleKeyDown, hy, if_true]
    simp [Snake.grid]

/-- Witness for C4: the initial state, which moves Right. -/
theorem claim4_direction_guard_witness :
    ((Snake.handleKeyDown (fun _ => 0) Snake.Key.left Snake.initState 0).1 ≠
        Snake.initState ↔ Snake.initState.dx = 0) ∧
      ((Snake.handleKeyDown (fun _ => 0) Snake.Key.right Snake.initState 0).1 ≠
        Snake.initState ↔ Snake.initState.dx = 0) ∧
      ((Snake.handleKeyDown (fun _ => 0) Snake.Key.up Snake.initState 0).1 ≠
        Snake.initState ↔ Snake.initState.dy = 0) ∧
      ((Snake.handleKeyDown (fun _ => 0) Snake.Key.down Snake.initState 0).1 ≠
        Snake.initState ↔ Snake.initState.dy = 0) ∧
      (Snake.initState.dx = 16 → Snake.initState.dy = 0 →
        ((Snake.handleKeyDown (fun _ => 0) Snake.Key.left Snake.initState 0).1 =
            Snake.initState ∧
          (Snake.handleKeyDown (fun _ => 0) Snake.Key.up Snake.initState 0).1 =
            { Snake.initState with dx := 0, dy := -16 } ∧
          (Snake.handleKeyDown (fun _ => 0) Snake.Key.down Snake.initState 0).1 =
            { Snake.initState with dx := 0, dy := 16 })) :=
  claim4_direction_guard (fun _ => 0) Snake.initState 0

/-- Claim C8: the velocity is always axis-aligned with magnitude
`grid = 16` (one of Right, Left, Up, Down): the invariant holds in the
initial state, is established by every reset, and is preserved by every
keyboard event and every simulation tick. -/
theorem claim8_direction_invariant (rng : Nat → ℚ) (key : Snake.Key)
    (s : Snake.GameState) (k : Nat) :
    Snake.dirOk Snake.initState ∧
      Snake.dirOk (Snake.resetGame rng k).1 ∧
      (Snake.dirOk s → Snake.dirOk (Snake.handleKeyDown rng key s k).1) ∧
      (Snake.dirOk s → Snake.dirOk (Snake.gameLoopTick rng s k).1) := by
  refine ⟨?_, ?_, fun hdir => ?_, fun hdir => ?_⟩
  · simp [Snake.dirOk, Snake.initState, Snake.grid]
  · simp [Snake.dirOk, Snake.resetGame, Snake.grid]
  · cases key with
    | left =>
      by_cases h : s.dx = 0
      · simp [Snake.handleKeyDown, h, Snake.dirOk, Snake.grid]
      · simpa [Snake.handleKeyDown, h] using hdir
    | up =>
      by_cases h : s.dy = 0
      · simp [Snake.handleKeyDown, h, Snake.dirOk, Snake.grid]
      · simpa [Snake.handleKeyDown, h] using hdir
    | right =>
      by_cases h : s.dx = 0
      · simp [Snake.handleKeyDown, h, Snake.dirOk, Snake.grid]
      · simpa [Snake.handleKeyDown, h] using hdir
    | down =>
      by_cases h : s.dy = 0
      · simp [Snake.handleKeyDown, h, Snake.dirOk, Snake.grid]
      · simpa [Snake.handleKeyDown, h] using hdir
    | restart => simp [Snake.handleKeyDown, Snake.dirOk, Snake.resetGame, Snake.grid]
    | quit => exact hdir
    | other => exact hdir
  · unfold Snake.gameLoopTick
    rcases scanCells_frame rng (Snake.tickCells s) 0
        { s with
            x := (Snake.nextHead s).1
            y := (Snake.nextHead s).2
            cells := Snake.tickCells s } k with h | h
    · unfold Snake.dirOk at hdir ⊢
      rw [h.2.2.1, h.2.2.2.1]
      exact hdir
    · unfold Snake.dirOk
      rw [h.2.2.1, h.2.2.2.1]
      exact Or.inl ⟨Or.inl rfl, rfl⟩

/-- Witness for C8: the initial state under the Left key. -/
theorem claim8_direction_invariant_witness :
    Snake.dirOk Snake.initState ∧
      Snake.dirOk (Snake.resetGame (fun _ => 0) 0).1 ∧
      (Snake.dirOk Snake.initState →
        Snake.dirOk
          (Snake.handleKeyDown (fun _ => 0) Snake.Key.left Snake.initState 0).1) ∧
      (Snake.dirOk Snake.initState →
        Snake.dirOk (Snake.gameLoopTick (fun _ => 0) Snake.initState 0).1) :=
  claim8_direction_invariant (fun _ => 0) Snake.Key.left Snake.initState 0

/-! ### Snake: self-collision reset (C1) -/

/-- Unfolding of one tick into the head/cells update plus the scan. -/
theorem gameLoopTick_eq (rng : Nat → ℚ) (s : Snake.GameState) (k : Nat) :
    Snake.gameLoopTick rng s k =
      Snake.scanCells rng (Snake.tickCells s) 0
        { s with
            x := (Snake.nextHead s).1
            y := (Snake.nextHead s).2
            cells := Snake.tickCells s } k := rfl

set_option maxRecDepth 100000 in
set_option maxHeartbeats 1000000 in
/-- Counterexample refuting C1 as stated: a fully reachable play (24 ticks
with steering from the initial state; the oracle draws are listed in
`collisionRng`).  On the final tick the head re-enters an occupied cell, so
the self-collision scan fires `resetGame()` — but the source does *not*
stop processing the tick: the `forEach` continues over the captured cell
array, a remaining cell coincides with the freshly relocated apple, and the
tick ends with `score = 10`, not `score = 0` as the claim requires. -/
theorem claim1_counterexample :
    ¬ (Snake.tickCells
        (Snake.runEvents Snake.collisionRng Snake.collisionScript).1).Nodup ∧
      (Snake.runEvents Snake.collisionRng
          (Snake.collisionScript ++ [Snake.Ev.tick])).1.cells = [] ∧
      (Snake.runEvents Snake.collisionRng
          (Snake.collisionScript ++ [Snake.Ev.tick])).1.score = 10 ∧
      (Snake.runEvents Snake.collisionRng
          (Snake.collisionScript ++ [Snake.Ev.tick])).1.score ≠ 0 := by
  with_unfolding_all decide

/-- Claim C1 (amended): when two cells of the tick's captured array are
coordinate-equal, the scan fires `resetGame()` (cells emptied, score 0,
target length 4, initial position and direction, apple relocated), but the
per-cell processing of the tick does *not* stop: the remaining captured
cells are still checked against the (freshly relocated) apple, and each
coincidence adds 10 to the score and 1 to the target length.  Hence the
post-tick state always has `cells = []` and the initial position and
direction, and additionally `score = 0` and the initial length whenever no
oracle-generated apple position lies on the captured cells. -/
theorem claim1_amended (rng : Nat → ℚ) (s : Snake.GameState) (k : Nat)
    (hmiss : ∀ j, Snake.newApple rng j ∉ Snake.tickCells s)
    (hdup : ¬ (Snake.tickCells s).Nodup) :
    (Snake.gameLoopTick rng s k).1.cells = [] ∧
      (Snake.gameLoopTick rng s k).1.score = 0 ∧
      (Snake.gameLoopTick rng s k).1.maxCells = 4 ∧
      (Snake.gameLoopTick rng s k).1.x = 160 ∧
      (Snake.gameLoopTick rng s k).1.y = 160 ∧
      (Snake.gameLoopTick rng s k).1.dx = 16 ∧
      (Snake.gameLoopTick rng s k).1.dy = 0 := by
  have hne : Snake.tickCells s ≠ [] := by
    intro h
    exact hdup (h ▸ List.nodup_nil)
  obtain ⟨p, hp, hmem⟩ := exists_dup_of_not_nodup _ hdup
  rw [gameLoopTick_eq]
  have hcells : (Snake.scanCells rng (Snake.tickCells s) 0
      { s with
          x := (Snake.nextHead s).1
          y := (Snake.nextHead s).2
          cells := Snake.tickCells s } k).1.cells = [] := by
    apply scanCells_dup
    refine ⟨p, hp, ?_⟩
    simpa using hmem
  rcases scanCells_collision rng (Snake.tickCells s) 0
      { s with
          x := (Snake.nextHead s).1
          y := (Snake.nextHead s).2
          cells := Snake.tickCells s } k hmiss hcells with h | h
  · exact absurd h hne
  · exact ⟨hcells, h.1, h.2.1, h.2.2.1, h.2.2.2.1, h.2.2.2.2.1, h.2.2.2.2.2⟩

/-- Witness for C1 (amended): a snake of target length 5 whose head
re-enters its own cell on this tick, with an oracle that always relocates
the apple to (0, 0), off the snake. -/
theorem claim1_amended_witness :
    (Snake.gameLoopTick (fun _ => 0)
        ⟨144, 160, 16, 0,
          [(160, 160), (176, 160), (176, 176), (160, 176), (160, 160)],
          5, 0, 320, 320⟩ 0).1.cells = [] ∧
      (Snake.gameLoopTick (fun _ => 0)
        ⟨144, 160, 16, 0,
          [(160, 160), (176, 160), (176, 176), (160, 176), (160, 160)],
          5, 0, 320, 320⟩ 0).1.score = 0 ∧
      (Snake.gameLoopTick (fun _ => 0)
        ⟨144, 160, 16, 0,
          [(160, 160), (176, 160), (176, 176), (160, 176), (160, 160)],
          5, 0, 320, 320⟩ 0).1.maxCells = 4 ∧
      (Snake.gameLoopTick (fun _ => 0)
        ⟨144, 160, 16, 0,
          [(160, 160), (176, 160), (176, 176), (160, 176), (160, 160)],
          5, 0, 320, 320⟩ 0).1.x = 160 ∧
      (Snake.gameLoopTick (fun _ => 0)
        ⟨144, 160, 16, 0,
          [(160, 160), (176, 160), (176, 176), (160, 176), (160, 160)],
          5, 0, 320, 320⟩ 0).1.y = 160 ∧
      (Snake.gameLoopTick (fun _ => 0)
        ⟨144, 160, 16, 0,
          [(160, 160), (176, 160), (176, 176), (160, 176), (160, 160)],
          5, 0, 320, 320⟩ 0).1.dx = 16 ∧
      (Snake.gameLoopTick (fun _ => 0)
        ⟨144, 160, 16, 0,
          [(160, 160), (176, 160), (176, 176), (160, 176), (160, 160)],
          5, 0, 320, 320⟩ 0).1.dy = 0 :=
  claim1_amended (fun _ => 0)
    ⟨144, 160, 16, 0,
      [(160, 160), (176, 160), (176, 176), (160, 176), (160, 160)],
      5, 0, 320, 320⟩ 0
    (by
      intro j
      have hj : Snake.newApple (fun _ => 0) j = (0, 0) := by
        simp [Snake.newApple, Snake.getRandomInt, Snake.grid]
      rw [hj]
      decide)
    (by decide)

/-! ### Snake: apple consumption (C3) -/

/-- The cell index `getRandomInt(0, 25)` lies in `[0, 25)` whenever the
`Math.random()` draw lies in `[0, 1)`. -/
theorem getRandomInt_bounds (r : ℚ) (h0 : 0 ≤ r) (h1 : r < 1) :
    0 ≤ Snake.getRandomInt 0 25 r ∧ Snake.getRandomInt 0 25 r < 25 := by
  unfold Snake.getRandomInt
  have h25 : (((25 : Int) : ℚ) - ((0 : Int) : ℚ)) = 25 := by norm_num
  rw [h25]
  constructor
  · have hx : (0 : ℚ) ≤ r * 25 := by positivity
    have hf := Int.floor_nonneg.mpr hx
    omega
  · have hx : r * 25 < ((25 : Int) : ℚ) := by
      push_cast
      nlinarith
    have hf := Int.floor_lt.mpr hx
    omega

/-- Unfolding of the per-tick cell update. -/
theorem tickCells_eq (s : Snake.GameState) :
    Snake.tickCells s =
      if (Snake.nextHead s :: s.cells).length > s.maxCells then
        (Snake.nextHead s :: s.cells).dropLast
      else Snake.nextHead s :: s.cells := rfl

/-- With a positive target length, the tick's cell list starts with the new
head. -/
theorem tickCells_cons (s : Snake.GameState) (hm : 1 ≤ s.maxCells) :
    ∃ rest, Snake.tickCells s = Snake.nextHead s :: rest := by
  rw [tickCells_eq]
  by_cases hp : (Snake.nextHead s :: s.cells).length > s.maxCells
  · rw [if_pos hp]
    rcases hc : s.cells with _ | ⟨a, l⟩
    · rw [hc] at hp
      simp at hp
      omega
    · exact ⟨(a :: l).dropLast, by simp⟩
  · rw [if_neg hp]
    exact ⟨s.cells, rfl⟩

set_option maxRecDepth 100000 in
set_option maxHeartbeats 1000000 in
/-- Counterexample refuting C3 as stated: a fully reachable play (the
oracle draws are listed in `doubleEatRng`).  On the tick in which the head
reaches the apple, the relocation places the apple onto a body cell that
the same tick's scan still visits, so the score rises by 20 and the target
length by 2 — not by exactly 10 and 1 as the claim requires for every
random draw. -/
theorem claim3_counterexample :
    Snake.nextHead (Snake.runEvents Snake.doubleEatRng Snake.doubleEatScript).1 =
        ((Snake.runEvents Snake.doubleEatRng Snake.doubleEatScript).1.appleX,
          (Snake.runEvents Snake.doubleEatRng Snake.doubleEatScript).1.appleY) ∧
      (Snake.runEvents Snake.doubleEatRng
          (Snake.doubleEatScript ++ [Snake.Ev.tick])).1.score =
        (Snake.runEvents Snake.doubleEatRng Snake.doubleEatScript).1.score + 20 ∧
      (Snake.runEvents Snake.doubleEatRng
          (Snake.doubleEatScript ++ [Snake.Ev.tick])).1.maxCells =
        (Snake.runEvents Snake.doubleEatRng Snake.doubleEatScript).1.maxCells
          + 2 ∧
      ¬ ((Snake.runEvents Snake.doubleEatRng
          (Snake.doubleEatScript ++ [Snake.Ev.tick])).1.score =
        (Snake.runEvents Snake.doubleEatRng Snake.doubleEatScript).1.score
          + 10) := by
  with_unfolding_all decide

/-- Claim C3 (amended): when the head's newly-occupied cell coincides with
the apple and the captured cell list is duplicate-free, that tick increases
the score by exactly 10 and the target length by exactly 1 *provided* the
apple relocation never lands on a scanned cell (each such landing adds
another 10 and 1, as the counterexample shows); the relocated apple always
lies at a coordinate of the form `(i*16, j*16)` with `0 ≤ i, j < 25` — a
valid in-board cell, possibly coincident with the snake body. -/
theorem claim3_amended (rng : Nat → ℚ) (s : Snake.GameState) (k : Nat)
    (hv : Snake.validRng rng) (hm : 1 ≤ s.maxCells)
    (hhead : Snake.nextHead s = (s.appleX, s.appleY))
    (hnd : (Snake.tickCells s).Nodup)
    (hmiss : ∀ j, Snake.newApple rng j ∉ Snake.tickCells s) :
    (Snake.gameLoopTick rng s k).1.score = s.score + 10 ∧
      (Snake.gameLoopTick rng s k).1.maxCells = s.maxCells + 1 ∧
      ∃ i j : Int, 0 ≤ i ∧ i < 25 ∧ 0 ≤ j ∧ j < 25 ∧
        (Snake.gameLoopTick rng s k).1.appleX = i * 16 ∧
        (Snake.gameLoopTick rng s k).1.appleY = j * 16 := by
  obtain ⟨rest, hrest⟩ := tickCells_cons s hm
  have hnotmem : Snake.nextHead s ∉ rest := by
    rw [hrest] at hnd
    exact (List.nodup_cons.mp hnd).1
  have hndrest : rest.Nodup := by
    rw [hrest] at hnd
    exact (List.nodup_cons.mp hnd).2
  rw [gameLoopTick_eq, hrest, Snake.scanCells]
  have hstep : Snake.scanStep rng (Snake.nextHead s) 0
      { s with
          x := (Snake.nextHead s).1
          y := (Snake.nextHead s).2
          cells := Snake.nextHead s :: rest } k =
      ({ s with
          x := (Snake.nextHead s).1
          y := (Snake.nextHead s).2
          cells := Snake.nextHead s :: rest
          maxCells := s.maxCells + 1
          score := s.score + 10
          appleX := (Snake.newApple rng k).1
          appleY := (Snake.newApple rng k).2 }, k + 2) := by
    unfold Snake.scanStep
    dsimp only
    have hcond : (Snake.nextHead s).1 = s.appleX ∧
        (Snake.nextHead s).2 = s.appleY :=
      ⟨congrArg Prod.fst hhead, congrArg Prod.snd hhead⟩
    rw [if_pos hcond]
    dsimp only
    have hany : ¬ ((((Snake.nextHead s :: rest).drop (0 + 1)).any
        (fun d => d.1 = (Snake.nextHead s).1 ∧
          d.2 = (Snake.nextHead s).2)) = true) := by
      simp only [Nat.zero_add, List.drop_succ_cons, List.drop_zero,
        List.any_eq_true, decide_eq_true_eq, not_exists, not_and]
      intro d hd he1 he2
      exact absurd
        (by rwa [show d = Snake.nextHead s from Prod.ext he1 he2] at hd)
        hnotmem
    rw [if_neg hany]
  rw [hstep]
  have hnoop := scanCells_noop rng rest (0 + 1)
      { s with
          x := (Snake.nextHead s).1
          y := (Snake.nextHead s).2
          cells := Snake.nextHead s :: rest
          maxCells := s.maxCells + 1
          score := s.score + 10
          appleX := (Snake.newApple rng k).1
          appleY := (Snake.newApple rng k).2 } (k + 2)
      (by
        intro c hc
        rintro ⟨e1, e2⟩
        have hceq : c = Snake.newApple rng k := Prod.ext e1 e2
        exact hmiss k (by
          rw [hrest]
          exact List.mem_cons_of_mem _ (hceq ▸ hc)))
      (by
        intro p hp
        have hdrop :
            ({ s with
                x := (Snake.nextHead s).1
                y := (Snake.nextHead s).2
                cells := Snake.nextHead s :: rest
                maxCells := s.maxCells + 1
                score := s.score + 10
                appleX := (Snake.newApple rng k).1
                appleY := (Snake.newApple rng k).2 } :
              Snake.GameState).cells.drop (0 + 1 + p + 1) =
              rest.drop (p + 1) := by
          show (Snake.nextHead s :: rest).drop (0 + 1 + p + 1) =
            rest.drop (p + 1)
          have harith : 0 + 1 + p + 1 = (p + 1) + 1 := by omega
          rw [harith, List.drop_succ_cons]
        rw [hdrop]
        exact nodup_get_not_mem_drop rest hndrest p hp)
  rw [hnoop]
  refine ⟨rfl, rfl, Snake.getRandomInt 0 25 (rng k),
    Snake.getRandomInt 0 25 (rng (k + 1)), ?_, ?_, ?_, ?_, ?_, ?_⟩
  · exact (getRandomInt_bounds (rng k) (hv k).1 (hv k).2).1
  · exact (getRandomInt_bounds (rng k) (hv k).1 (hv k).2).2
  · exact (getRandomInt_bounds (rng (k + 1)) (hv (k + 1)).1 (hv (k + 1)).2).1
  · exact (getRandomInt_bounds (rng (k + 1)) (hv (k + 1)).1 (hv (k + 1)).2).2
  · show (Snake.newApple rng k).1 = Snake.getRandomInt 0 25 (rng k) * 16
    rfl
  · show (Snake.newApple rng k).2 = Snake.getRandomInt 0 25 (rng (k + 1)) * 16
    rfl

/-- Witness for C3 (amended): a snake two cells long about to eat the
apple at (320, 320), with an oracle of constant draw 1/2 (so every
relocation targets cell (12, 12), i.e. (192, 192), off the snake). -/
theorem claim3_amended_witness :
    (Snake.gameLoopTick (fun _ => (1 : ℚ) / 2)
        ⟨304, 320, 16, 0, [(304, 320), (288, 320)], 4, 0, 320, 320⟩ 0).1.score
        = 10 ∧
      (Snake.gameLoopTick (fun _ => (1 : ℚ) / 2)
        ⟨304, 320, 16, 0, [(304, 320), (288, 320)], 4, 0, 320, 320⟩
        0).1.maxCells = 5 ∧
      ∃ i j : Int, 0 ≤ i ∧ i < 25 ∧ 0 ≤ j ∧ j < 25 ∧
        (Snake.gameLoopTick (fun _ => (1 : ℚ) / 2)
          ⟨304, 320, 16, 0, [(304, 320), (288, 320)], 4, 0, 320, 320⟩
          0).1.appleX = i * 16 ∧
        (Snake.gameLoopTick (fun _ => (1 : ℚ) / 2)
          ⟨304, 320, 16, 0, [(304, 320), (288, 320)], 4, 0, 320, 320⟩
          0).1.appleY = j * 16 :=
  claim3_amended (fun _ => (1 : ℚ) / 2)
    ⟨304, 320, 16, 0, [(304, 320), (288, 320)], 4, 0, 320, 320⟩ 0
    (by
      intro k
      constructor <;> norm_num)
    (by decide)
    (by decide)
    (by decide)
    (by
      intro j
      have hj : Snake.newApple (fun _ => (1 : ℚ) / 2) j = (192, 192) := by
        have hfl : Snake.getRandomInt 0 25 ((1 : ℚ) / 2) = 12 := by
          unfold Snake.getRandomInt
          norm_num
        unfold Snake.newApple
        rw [hfl]
        decide
      rw [hj]
      decide)

/-! ### Snake: straight run from the initial state (C2) -/

/-- One movement step of the wrapped x-coordinate equals one modular
step. -/
theorem wrap_mod_step (k : Nat) :
    Snake.wrapCoord ((160 + 16 * (k : Int)) % 400 + 16) =
      (160 + 16 * ((k : Int) + 1)) % 400 := by
  unfold Snake.wrapCoord Snake.canvasSize Snake.grid
  split_ifs <;> omega

/-- The straight-run body has `min k 4` cells. -/
theorem trailAt_length (k : Nat) : (Snake.trailAt k).length = min k 4 := by
  match k with
  | 0 => rfl
  | 1 => rfl
  | 2 => rfl
  | 3 => rfl
  | n + 4 =>
    simp only [Snake.trailAt, List.length_cons, List.length_nil]
    omega

/-- One tick of the straight run advances the closed-form state by one. -/
theorem straight_step (rng : Nat → ℚ) (k : Nat) :
    Snake.gameLoopTick rng (Snake.straightState k) 0 =
      (Snake.straightState (k + 1), 0) := by
  rcases k with _ | _ | _ | _ | n
  · rfl
  · rfl
  · rfl
  · rfl
  · have hhead : Snake.nextHead (Snake.straightState (n + 4)) =
        Snake.posAt (n + 5) := by
      unfold Snake.nextHead Snake.straightState Snake.posAt
      dsimp only
      refine Prod.ext ?_ ?_
      · rw [wrap_mod_step (n + 4)]
        have harith : ((n + 4 : Nat) : Int) + 1 = ((n + 5 : Nat) : Int) := by
          push_cast
          ring
        rw [harith]
      · show Snake.wrapCoord (160 + 0) = 160
        decide
    have hcells : Snake.tickCells (Snake.straightState (n + 4)) =
        [Snake.posAt (n + 5), Snake.posAt (n + 4), Snake.posAt (n + 3),
          Snake.posAt (n + 2)] := by
      rw [tickCells_eq, hhead]
      show (if (Snake.posAt (n + 5) :: Snake.trailAt (n + 4)).length > 4 then
          (Snake.posAt (n + 5) :: Snake.trailAt (n + 4)).dropLast
        else Snake.posAt (n + 5) :: Snake.trailAt (n + 4)) = _
      simp [Snake.trailAt]
    have hposne : ∀ a b : Nat, b < a → a ≤ b + 3 →
        Snake.posAt a ≠ Snake.posAt b := by
      intro a b h1 h2 heq
      have hfst := congrArg Prod.fst heq
      simp only [Snake.posAt] at hfst
      omega
    have hndtrail : ([Snake.posAt (n + 5), Snake.posAt (n + 4),
        Snake.posAt (n + 3), Snake.posAt (n + 2)] :
          List (Int × Int)).Nodup := by
      have h54 := hposne (n + 5) (n + 4) (by omega) (by omega)
      have h53 := hposne (n + 5) (n + 3) (by omega) (by omega)
      have h52 := hposne (n + 5) (n + 2) (by omega) (by omega)
      have h43 := hposne (n + 4) (n + 3) (by omega) (by omega)
      have h42 := hposne (n + 4) (n + 2) (by omega) (by omega)
      have h32 := hposne (n + 3) (n + 2) (by omega) (by omega)
      simp only [List.nodup_cons, List.mem_cons, List.not_mem_nil, or_false,
        List.nodup_nil, and_true, not_or]
      exact ⟨⟨h54, h53, h52⟩, ⟨h43, h42⟩, h32, not_false⟩
    rw [gameLoopTick_eq, hcells, hhead]
    rw [scanCells_noop rng
      [Snake.posAt (n + 5), Snake.posAt (n + 4), Snake.posAt (n + 3),
        Snake.posAt (n + 2)] 0
      { Snake.straightState (n + 4) with
          x := (Snake.posAt (n + 5)).1
          y := (Snake.posAt (n + 5)).2
          cells := [Snake.posAt (n + 5), Snake.posAt (n + 4),
            Snake.posAt (n + 3), Snake.posAt (n + 2)] } 0
      (by
        intro c hc
        simp only [List.mem_cons, List.not_mem_nil, or_false] at hc
        rcases hc with h | h | h | h <;> subst h <;>
          exact fun hx => by
            have := hx.2
            simp [Snake.posAt, Snake.straightState] at this)
      (by
        intro p hp
        have h := nodup_get_not_mem_drop _ hndtrail p hp
        simpa using h)]
    rfl

/-- The closed form of the straight run: after `k` ticks with no key
events, the state is `straightState k` and no oracle draw has been
consumed. -/
theorem ticksFromInit_closed (rng : Nat → ℚ) :
    ∀ k, Snake.ticksFromInit rng k = (Snake.straightState k, 0) := by
  intro k
  induction k with
  | zero => rfl
  | succ n ih =>
    rw [Snake.ticksFromInit, ih]
    exact straight_step rng n

/-- Counterexample refuting C2 as stated: after exactly `k = 1` tick from
the initial state (no apple eaten — score still 0 and target length still
4 — and no collision — the body is nonempty), the body has 1 cell, not
`min(k+1, 4) = 2`: the initial `cells` array is empty, so after `k` ticks
it holds `min(k, 4)` cells, one fewer than the claim's formula. -/
theorem claim2_counterexample :
    (Snake.ticksFromInit (fun _ => 0) 1).1.cells.length = 1 ∧
      min (1 + 1) 4 = 2 ∧
      (Snake.ticksFromInit (fun _ => 0) 1).1.score = 0 ∧
      (Snake.ticksFromInit (fun _ => 0) 1).1.maxCells = 4 ∧
      (Snake.ticksFromInit (fun _ => 0) 1).1.cells ≠ [] ∧
      ¬ ((Snake.ticksFromInit (fun _ => 0) 1).1.cells.length = min (1 + 1) 4) := by
  with_unfolding_all decide

/-- Claim C2 (amended): for every `k ≥ 0`, after exactly `k` ticks from
the initial state with no key events — a run in which no apple is consumed
(score stays 0, target length stays 4) and no self-collision occurs — the
body length is `min(k, initial length)` (not `min(k+1, ·)`: the initial
`cells` array is empty), and the head coordinate equals the initial head
plus `k` steps of the velocity with each axis wrapped modulo the board
extent (the per-step wrap rule of the source coincides with `% 400` on the
grid-aligned trajectory). -/
theorem claim2_amended (rng : Nat → ℚ) (k : Nat) :
    (Snake.ticksFromInit rng k).1.cells.length = min k 4 ∧
      (Snake.ticksFromInit rng k).1.x = (160 + 16 * (k : Int)) % 400 ∧
      (Snake.ticksFromInit rng k).1.y = 160 ∧
      (Snake.ticksFromInit rng k).1.score = 0 ∧
      (Snake.ticksFromInit rng k).1.maxCells = 4 := by
  rw [ticksFromInit_closed]
  exact ⟨trailAt_length k, rfl, rfl, rfl, rfl⟩
